import Mathlib

/-!
# A shallow embedding of cavy's `TestRunner` (src/src/TestRunner.js)

The JavaScript source is a single class driving sequential test execution:
`runTestSuites` iterates suites and cases, applies an optional tag filter,
runs each case's lifecycle via `runTest`, accumulates `results` and
`errorCount`, and finally dispatches a report to a reporter that is probed
structurally (callable function / `.type == 'realtime'` / `.type == 'deferred'`).

Modelling choices:
* Every awaitable collaborator call (`component.clearAsync()`, a suite's
  `beforeEach` hook, the case body `f`) and the synchronous
  `component.reRender()` is represented by its outcome: normal completion or a
  thrown error identified by its message (`AsyncOutcome`).
* Execution state (`RunState`) carries a millisecond wall clock `now`, the
  `results` array, the `errorCount`, and an observable `trace` of events:
  console output, collaborator invocations (recording the `this` context the
  source passes via `.call(scope)`), and reporter invocations.
* The ambient clock (`new Date()` in the source) advances by a fixed
  per-configuration amount `stepTime` across each awaited suspension point.
* A thrown JavaScript error is modelled by returning `some message` alongside
  the state reached so far; an async function's side effects up to the throw
  are retained, as in JavaScript.
* Reading `.type` on a `null`/`undefined` reporter throws a `TypeError`
  (modelled by `typeErrorMsg`).  The final `else` branch of the reporter
  dispatch assigns to the undeclared identifier `message`; class bodies are
  strict-mode code, so that assignment throws a `ReferenceError`
  (modelled by `referenceErrorMsg`) before anything is logged.
-/

namespace Cavy

/-- Outcome of invoking a collaborator operation or a case body: normal
completion, or a thrown/rejected error carrying its `.message` string. -/
inductive AsyncOutcome where
  | ok
  | throws (msg : String)
deriving DecidableEq

/-- A test case as consumed by `runTest`: `{ describeLabel, label, tag, f }`.
`f` is the case body; its behaviour when invoked is the recorded outcome. -/
structure TestCase where
  describeLabel : String
  label : String
  tag : Option String
  f : AsyncOutcome
deriving DecidableEq

/-- A test suite (a `TestScope` in the source): an ordered list of test cases
and an optional `beforeEach` hook with its outcome when invoked. -/
structure TestScope where
  testCases : List TestCase
  beforeEach : Option AsyncOutcome
deriving DecidableEq

/-- The subject-under-test adapter (`this.component`): `clearAsync()` is
awaited, `reRender()` is called synchronously.  Each is modelled by the
outcome of invoking it. -/
structure Component where
  clearAsync : AsyncOutcome
  reRender : AsyncOutcome
deriving DecidableEq

/-- The injected reporter value, classified the way the source probes it:
a callable function (`instanceof Function`), a non-function object with an
optional `.type` property, or `null`/`undefined` (on which any property
read throws a `TypeError`). -/
inductive Reporter where
  | func
  | obj (type? : Option String)
  | nullish
deriving DecidableEq

/-- One entry of the `results` array pushed by `runTest`. -/
structure TestResult where
  describeLabel : String
  description : String
  message : String
  errorMessage : Option String
  passed : Bool
  time : Int
deriving DecidableEq

/-- The `fullResults` object built in `runTestSuites`. -/
structure FullResults where
  time : Int
  timestamp : Nat
  testCases : List TestResult
deriving DecidableEq

/-- The report object compiled in `runTestSuites`. -/
structure Report where
  results : List TestResult
  fullResults : FullResults
  errorCount : Nat
  duration : Int
deriving DecidableEq

/-- Observable events of a run: console output, collaborator invocations
(recording the `this` context passed via `.call(scope)`), and reporter
invocations. -/
inductive Event where
  | log (msg : String)
  | warn (msg : String)
  | clearAsyncCall
  | beforeEachCall (ctx : TestScope)
  | reRenderCall
  | caseBodyCall (ctx : TestScope) (test : TestCase)
  | reporterSend (message : String) (passed : Bool)
  | reporterCallback (report : Report)
  | reporterOnFinish (report : Report)
  | reporterDeferredSend (report : Report)
deriving DecidableEq

/-- Mutable execution state: wall clock (ms), the accumulated `results`
array, the `errorCount`, and the event trace. -/
structure RunState where
  now : Nat
  results : List TestResult
  errorCount : Nat
  trace : List Event
deriving DecidableEq

/-- The constructor arguments of `TestRunner`, plus `stepTime`: the amount
(in ms) by which the ambient wall clock advances across each awaited
suspension point. -/
structure TestRunner where
  component : Component
  testSuites : List TestScope
  startDelay : Nat
  reporter : Reporter
  shouldSendReport : Option Bool
  filter : Option (List String)
  stepTime : Nat
deriving DecidableEq

/-- State right after the constructor ran: `this.results = []`,
`this.errorCount = 0`, empty trace, clock at `now`. -/
def initialState (now : Nat) : RunState :=
  { now := now, results := [], errorCount := 0, trace := [] }

/-- Message of the `TypeError` thrown by reading `.type` on a
`null`/`undefined` reporter. -/
def typeErrorMsg : String := "Cannot read property 'type' of null"

/-- Message of the `ReferenceError` thrown by the strict-mode assignment
`message = '...'` to an undeclared identifier in the final reporter-dispatch
branch. -/
def referenceErrorMsg : String := "message is not defined"

/-- The deprecation warning printed when the legacy `sendReport` prop was
supplied. -/
def deprecationMsg : String :=
  "Deprecation warning: using the `sendReport` prop is deprecated. " ++
  "By default, Cavy now checks whether the cavy-cli server is running " ++
  "and sends a report if a connection is detected."

/-- The derived case description: describeLabel, a colon and a space, then
the label. -/
def TestCase.description (t : TestCase) : String :=
  t.describeLabel ++ ": " ++ t.label

/-- The success log line: description followed by the success glyph. -/
def successMessage (test : TestCase) : String :=
  test.description ++ "  ✅"

/-- The failure log line: description, failure glyph, newline and the
indented error message. -/
def failureMessage (test : TestCase) (e : String) : String :=
  test.description ++ "  ❌\n   " ++ e

/-- The object pushed onto `results` on success. -/
def successResult (test : TestCase) (time : Int) : TestResult :=
  { describeLabel := test.describeLabel, description := test.description,
    message := successMessage test, errorMessage := none,
    passed := true, time := time }

/-- The object pushed onto `results` in the `catch` block. -/
def failureResult (test : TestCase) (e : String) (time : Int) : TestResult :=
  { describeLabel := test.describeLabel, description := test.description,
    message := failureMessage test e, errorMessage := some e,
    passed := false, time := time }

/-- `this.filter.includes(tag)`: membership of the case's (possibly absent)
tag in the filter array of strings; `includes(undefined)` on an array of
strings is `false`. -/
def includesTag (fil : List String) (tag : Option String) : Bool :=
  match tag with
  | some t => fil.contains t
  | none => false

/-- The guard `!this.filter || (this.filter && this.filter.includes(tag))`
deciding whether a case runs; `none` models an absent (`null`/`undefined`)
filter. -/
def shouldRunTest (filter : Option (List String)) (tag : Option String) : Bool :=
  match filter with
  | none => true
  | some fil => includesTag fil tag

/-- The probe `!(this.reporter instanceof Function) && this.reporter.type ==
'realtime'` performed after each case, together with the `send` it triggers:
returns the reporter event to append (if any), or the `TypeError` thrown by
reading `.type` on a nullish reporter. -/
def realtimeCheck (rep : Reporter) (msg : String) (passed : Bool) :
    Except String (Option Event) :=
  match rep with
  | .func => .ok none
  | .nullish => .error typeErrorMsg
  | .obj t => .ok (if t = some "realtime" then some (.reporterSend msg passed) else none)

/-- The `catch (e)` block of `runTest`: compute elapsed time, warn, push a
failed result, perform the realtime probe (whose `TypeError` on a nullish
reporter escapes the catch block), then increment `errorCount`. -/
def catchBlock (cfg : TestRunner) (test : TestCase) (start : Nat) (e : String)
    (st : RunState) : RunState × Option String :=
  let stop := st.now
  let time := ((stop : Int) - (start : Int)) / 1000
  let fullErrorMessage := failureMessage test e
  let st := { st with trace := st.trace ++ [Event.warn fullErrorMessage] }
  let st := { st with results := st.results ++ [failureResult test e time] }
  match realtimeCheck cfg.reporter fullErrorMessage false with
  | .error e2 => (st, some e2)
  | .ok ev? =>
    let st := { st with trace := st.trace ++ ev?.toList }
    ({ st with errorCount := st.errorCount + 1 }, none)

/-- `runTest(scope, test)`: records start time, awaits
`component.clearAsync()`, awaits `scope.beforeEach.call(scope)` when
declared, calls `component.reRender()`, then runs the case body inside
`try`/`catch`.  Only the body runs inside the `try`; an error from any of
the three preceding steps propagates out.  On success it logs, pushes a
passed result and performs the realtime probe (a `TypeError` from the probe
is caught by the same `catch`); on failure the `catch` block runs. -/
def runTest (cfg : TestRunner) (scope : TestScope) (test : TestCase)
    (st : RunState) : RunState × Option String :=
  let start := st.now
  let st := { st with trace := st.trace ++ [Event.clearAsyncCall],
                      now := st.now + cfg.stepTime }
  match cfg.component.clearAsync with
  | .throws e => (st, some e)
  | .ok =>
    let hookStep : RunState × Option String :=
      match scope.beforeEach with
      | some hook =>
        let st := { st with trace := st.trace ++ [Event.beforeEachCall scope],
                            now := st.now + cfg.stepTime }
        match hook with
        | .throws e => (st, some e)
        | .ok => (st, none)
      | none => (st, none)
    match hookStep with
    | (st, some e) => (st, some e)
    | (st, none) =>
      let st := { st with trace := st.trace ++ [Event.reRenderCall] }
      match cfg.component.reRender with
      | .throws e => (st, some e)
      | .ok =>
        let st := { st with trace := st.trace ++ [Event.caseBodyCall scope test],
                            now := st.now + cfg.stepTime }
        match test.f with
        | .ok =>
          let stop := st.now
          let time := ((stop : Int) - (start : Int)) / 1000
          let successMsg := successMessage test
          let st := { st with trace := st.trace ++ [Event.log successMsg] }
          let st := { st with results := st.results ++ [successResult test time] }
          match realtimeCheck cfg.reporter successMsg true with
          | .error e => catchBlock cfg test start e st
          | .ok ev? => ({ st with trace := st.trace ++ ev?.toList }, none)
        | .throws e => catchBlock cfg test start e st

/-- The inner loop of `runTestSuites` over one suite's cases: each matching
case is awaited via `runTest`; an error thrown by `runTest` rejects the
whole iteration. -/
def runCases (cfg : TestRunner) (scope : TestScope) (cases : List TestCase)
    (st : RunState) : RunState × Option String :=
  match cases with
  | [] => (st, none)
  | t :: rest =>
    if shouldRunTest cfg.filter t.tag then
      match runTest cfg scope t st with
      | (st, none) => runCases cfg scope rest st
      | (st, some e) => (st, some e)
    else
      runCases cfg scope rest st

/-- The outer loop of `runTestSuites` over the suites. -/
def runSuites (cfg : TestRunner) (suites : List TestScope) (st : RunState) :
    RunState × Option String :=
  match suites with
  | [] => (st, none)
  | s :: rest =>
    match runCases cfg s s.testCases st with
    | (st, none) => runSuites cfg rest st
    | (st, some e) => (st, some e)

/-- The `fullResults` / `report` objects compiled at the end of
`runTestSuites`. -/
def mkReport (results : List TestResult) (errorCount : Nat) (startTs : Nat)
    (duration : Int) : Report :=
  { results := results
  , fullResults := { time := duration, timestamp := startTs, testCases := results }
  , errorCount := errorCount
  , duration := duration }

/-- The diagnostic text the source intends to log for an unrecognized
reporter (never actually logged; see `dispatchReport`). -/
def invalidReporterMsg : String :=
  "Could not find a valid reporter. For more information on custom " ++
  "reporters, see the documentation here: " ++
  "https://cavy.app/docs/guides/writing-custom-reporters"

/-- The end-of-run reporter dispatch: a callable reporter is invoked with the
report; an object with `.type == 'realtime'` gets `onFinish(report)`; one
with `.type == 'deferred'` gets `send(report)`; reading `.type` on a nullish
reporter throws a `TypeError`; any other object reaches the branch that
assigns to the undeclared identifier `message`, which throws a
`ReferenceError` in strict mode before `console.log(message)` can run. -/
def dispatchReport (cfg : TestRunner) (report : Report) (st : RunState) :
    RunState × Option String :=
  match cfg.reporter with
  | .func => ({ st with trace := st.trace ++ [Event.reporterCallback report] }, none)
  | .nullish => (st, some typeErrorMsg)
  | .obj t =>
    if t = some "realtime" then
      ({ st with trace := st.trace ++ [Event.reporterOnFinish report] }, none)
    else if t = some "deferred" then
      ({ st with trace := st.trace ++ [Event.reporterDeferredSend report] }, none)
    else
      (st, some referenceErrorMsg)

/-- `runTestSuites()`: log start, run all suites (an error escaping a case
lifecycle rejects here), log stop and duration, honour the deprecated
`sendReport` prop (`!= undefined` warns; a falsy value returns before the
report is compiled), then compile the report and dispatch it. -/
def runTestSuites (cfg : TestRunner) (st0 : RunState) : RunState × Option String :=
  let start := st0.now
  let st := { st0 with trace := st0.trace ++
    [Event.log ("Cavy test suite started at " ++ toString start ++ ".")] }
  match runSuites cfg cfg.testSuites st with
  | (st, some e) => (st, some e)
  | (st, none) =>
    let stop := st.now
    let duration := ((stop : Int) - (start : Int)) / 1000
    let st := { st with trace := st.trace ++
      [Event.log ("Cavy test suite stopped at " ++ toString stop ++
        ", duration: " ++ toString duration ++ " seconds.")] }
    match cfg.shouldSendReport with
    | some flag =>
      let st := { st with trace := st.trace ++ [Event.warn deprecationMsg] }
      if !flag then (st, none)
      else dispatchReport cfg (mkReport st.results st.errorCount start duration) st
    | none => dispatchReport cfg (mkReport st.results st.errorCount start duration) st

/-- The state right after the run-start log line. -/
def withStartLog (st : RunState) : RunState :=
  { st with trace := st.trace ++
      [Event.log ("Cavy test suite started at " ++ toString st.now ++ ".")] }

/-- The state right after the run-stop log line. -/
def withStopLog (st : RunState) (stop : Nat) (duration : Int) : RunState :=
  { st with trace := st.trace ++
      [Event.log ("Cavy test suite stopped at " ++ toString stop ++
        ", duration: " ++ toString duration ++ " seconds.")] }

/-- The state right after the deprecation warning. -/
def withDeprecationWarn (st : RunState) : RunState :=
  { st with trace := st.trace ++ [Event.warn deprecationMsg] }

/-- The tail of `runTestSuites` after the suite loop completed normally:
stop log, the deprecated `sendReport` shim, report compilation and
dispatch.  `runTestSuites` is definitionally the loop followed by this. -/
def finishReport (cfg : TestRunner) (start : Nat) (st : RunState) :
    RunState × Option String :=
  let duration := ((st.now : Int) - (start : Int)) / 1000
  let st1 := withStopLog st st.now duration
  match cfg.shouldSendReport with
  | some flag =>
    let st2 := withDeprecationWarn st1
    if !flag then (st2, none)
    else dispatchReport cfg (mkReport st2.results st2.errorCount start duration) st2
  | none => dispatchReport cfg (mkReport st1.results st1.errorCount start duration) st1

/-- `run()`: waits `startDelay` ms when the prop is truthy, then invokes
`runTestSuites()`. -/
def run (cfg : TestRunner) (st : RunState) : RunState × Option String :=
  let st := if cfg.startDelay ≠ 0 then { st with now := st.now + cfg.startDelay } else st
  runTestSuites cfg st

/-! ## Derived observations used by the statements -/

/-- Number of failed results: `count(r in results where !r.passed)`. -/
def countFailed (rs : List TestResult) : Nat :=
  (rs.filter (fun r => !r.passed)).length

/-- Any invocation of the reporter: per-case `send`, end-of-run callback,
`onFinish`, or deferred `send`. -/
def isReporterEvent : Event → Bool
  | .log _ => false
  | .warn _ => false
  | .clearAsyncCall => false
  | .beforeEachCall _ => false
  | .reRenderCall => false
  | .caseBodyCall _ _ => false
  | .reporterSend _ _ => true
  | .reporterCallback _ => true
  | .reporterOnFinish _ => true
  | .reporterDeferredSend _ => true

/-- An end-of-run reporter invocation (one that consumes a compiled report). -/
def isFinalReportEvent : Event → Bool
  | .log _ => false
  | .warn _ => false
  | .clearAsyncCall => false
  | .beforeEachCall _ => false
  | .reRenderCall => false
  | .caseBodyCall _ _ => false
  | .reporterSend _ _ => false
  | .reporterCallback _ => true
  | .reporterOnFinish _ => true
  | .reporterDeferredSend _ => true

/-- The sub-trace of reporter invocations. -/
def reporterEvents (tr : List Event) : List Event := tr.filter isReporterEvent

/-- The sub-trace of end-of-run reporter invocations. -/
def finalReportEvents (tr : List Event) : List Event := tr.filter isFinalReportEvent

/-- The (scope, case) pair carried by a case-body invocation event. -/
def bodyOf : Event → Option (TestScope × TestCase)
  | .log _ => none
  | .warn _ => none
  | .clearAsyncCall => none
  | .beforeEachCall _ => none
  | .reRenderCall => none
  | .caseBodyCall s t => some (s, t)
  | .reporterSend _ _ => none
  | .reporterCallback _ => none
  | .reporterOnFinish _ => none
  | .reporterDeferredSend _ => none

/-- The (scope, case) pairs whose bodies were invoked, in invocation order. -/
def executedBodies (tr : List Event) : List (TestScope × TestCase) :=
  tr.filterMap bodyOf

/-- All declared (scope, case) pairs in suite-then-case declaration order. -/
def declaredCases (cfg : TestRunner) : List (TestScope × TestCase) :=
  cfg.testSuites.flatMap (fun s => s.testCases.map (fun t => (s, t)))

/-- The `beforeEach` invocation event emitted for a scope, when the scope
declares a hook. -/
def hookEvents (scope : TestScope) : List Event :=
  match scope.beforeEach with
  | some _ => [Event.beforeEachCall scope]
  | none => []

/-- Number of awaited suspension points contributed by the optional hook. -/
def hookTicks (scope : TestScope) : Nat :=
  match scope.beforeEach with
  | some _ => 1
  | none => 0

/-- The per-case reporter events produced by the realtime probe for a given
reporter: one `send` for a realtime-shaped reporter, nothing otherwise. -/
def sendEvents (rep : Reporter) (msg : String) (passed : Bool) : List Event :=
  if rep = Reporter.obj (some "realtime") then [Event.reporterSend msg passed] else []

/-- The per-case reporter events produced over a list of results. -/
def caseSends (rep : Reporter) (rs : List TestResult) : List Event :=
  rs.flatMap (fun r => sendEvents rep r.message r.passed)

/-- A lifecycle event of the per-case protocol (steps 2-5). -/
def isLifecycleEvent : Event → Bool
  | .log _ => false
  | .warn _ => false
  | .clearAsyncCall => true
  | .beforeEachCall _ => true
  | .reRenderCall => true
  | .caseBodyCall _ _ => true
  | .reporterSend _ _ => false
  | .reporterCallback _ => false
  | .reporterOnFinish _ => false
  | .reporterDeferredSend _ => false

/-- A `beforeEach` hook that, if declared, completes normally when invoked. -/
def scopeHookOk (s : TestScope) : Prop :=
  s.beforeEach = none ∨ s.beforeEach = some AsyncOutcome.ok

/-- All per-case lifecycle steps other than the case body (state reset,
declared setup hooks, resynchronization) complete normally. -/
def setupStepsOk (cfg : TestRunner) : Prop :=
  cfg.component.clearAsync = AsyncOutcome.ok ∧
  cfg.component.reRender = AsyncOutcome.ok ∧
  ∀ s ∈ cfg.testSuites, scopeHookOk s

instance : DecidablePred scopeHookOk := fun s => by
  unfold scopeHookOk; infer_instance

instance (cfg : TestRunner) : Decidable (setupStepsOk cfg) := by
  unfold setupStepsOk; infer_instance

/-! ## Concrete fixtures used to instantiate the theorems -/

/-- A component whose reset and resync operations succeed. -/
def okComponent : Component := { clearAsync := .ok, reRender := .ok }

/-- An untagged case whose body completes normally. -/
def simpleCase : TestCase :=
  { describeLabel := "Suite", label := "works", tag := none, f := .ok }

/-- An untagged case whose body throws an error with message `boom`. -/
def throwingCase : TestCase :=
  { describeLabel := "Suite", label := "fails", tag := none, f := .throws "boom" }

/-- A run with one passing and one failing case, a declared hook that
succeeds, and a callback (function) reporter. -/
def basicCfg : TestRunner :=
  { component := okComponent
  , testSuites := [{ testCases := [simpleCase, throwingCase], beforeEach := some .ok }]
  , startDelay := 0, reporter := .func, shouldSendReport := none
  , filter := none, stepTime := 5 }

/-- The same run with a realtime-shaped reporter. -/
def realtimeCfg : TestRunner := { basicCfg with reporter := .obj (some "realtime") }

/-- The same run with a `null`/`undefined` reporter. -/
def nullReporterCfg : TestRunner := { basicCfg with reporter := .nullish }

/-- A filtered run (filter `["a"]`) with cases tagged `a`, tagged `b`, and
untagged, all hooks succeeding. -/
def filteredCfg : TestRunner :=
  { component := okComponent
  , testSuites :=
      [ { testCases :=
            [ { describeLabel := "Suite", label := "tagged", tag := some "a", f := .ok }
            , { describeLabel := "Suite", label := "other", tag := some "b", f := .ok }
            , { describeLabel := "Suite", label := "untagged", tag := none, f := .ok } ]
        , beforeEach := none } ]
  , startDelay := 0, reporter := .func, shouldSendReport := none
  , filter := some ["a"], stepTime := 5 }

/-- A run whose subject adapter's state-reset operation throws. -/
def clearThrowsCfg : TestRunner :=
  { component := { clearAsync := .throws "boom", reRender := .ok }
  , testSuites := [{ testCases := [simpleCase, { simpleCase with label := "second" }]
                   , beforeEach := none }]
  , startDelay := 0, reporter := .func, shouldSendReport := none
  , filter := none, stepTime := 5 }

/-- A run with a realtime-shaped reporter and the legacy `sendReport` prop
supplied as `false`. -/
def legacyRealtimeCfg : TestRunner :=
  { component := okComponent
  , testSuites := [{ testCases := [simpleCase], beforeEach := none }]
  , startDelay := 0, reporter := .obj (some "realtime"), shouldSendReport := some false
  , filter := none, stepTime := 5 }

/-- A run whose reporter is an object of none of the recognized shapes. -/
def invalidReporterCfg : TestRunner :=
  { component := okComponent
  , testSuites := [{ testCases := [simpleCase], beforeEach := none }]
  , startDelay := 0, reporter := .obj (some "bogus"), shouldSendReport := none
  , filter := none, stepTime := 5 }

/-- A filtered run (filter `["a"]`) with two cases tagged `a` in two suites;
the first suite's setup hook throws. -/
def filterHookAbortCfg : TestRunner :=
  { component := okComponent
  , testSuites :=
      [ { testCases := [{ describeLabel := "Suite", label := "one", tag := some "a", f := .ok }]
        , beforeEach := some (.throws "hook boom") }
      , { testCases := [{ describeLabel := "Suite", label := "two", tag := some "a", f := .ok }]
        , beforeEach := none } ]
  , startDelay := 0, reporter := .func, shouldSendReport := none
  , filter := some ["a"], stepTime := 5 }

/-- An unfiltered run with two declared cases in two suites; the first
suite's setup hook throws. -/
def noFilterHookAbortCfg : TestRunner :=
  { component := okComponent
  , testSuites :=
      [ { testCases := [{ describeLabel := "Suite", label := "one", tag := none, f := .ok }]
        , beforeEach := some (.throws "setup boom") }
      , { testCases := [{ describeLabel := "Suite", label := "two", tag := none, f := .ok }]
        , beforeEach := none } ]
  , startDelay := 0, reporter := .func, shouldSendReport := none
  , filter := none, stepTime := 5 }

end Cavy

namespace Cavy

/-! ## Helper lemmas -/

theorem realtimeCheck_not_nullish (rep : Reporter) (msg : String) (passed : Bool)
    (hrep : rep ≠ .nullish) :
    realtimeCheck rep msg passed =
      .ok (if rep = Reporter.obj (some "realtime")
           then some (Event.reporterSend msg passed) else none) := by
  cases rep with
  | nullish => exact absurd rfl hrep
  | func => simp [realtimeCheck]
  | obj t =>
    by_cases ht : t = some "realtime" <;> simp [realtimeCheck, ht]

theorem sendEvents_eq_toList (rep : Reporter) (msg : String) (passed : Bool) :
    (if rep = Reporter.obj (some "realtime")
     then some (Event.reporterSend msg passed) else none).toList =
      sendEvents rep msg passed := by
  by_cases h : rep = Reporter.obj (some "realtime") <;> simp [sendEvents, h]

theorem catchBlock_eq (cfg : TestRunner) (test : TestCase) (start : Nat) (e : String)
    (st : RunState) (hrep : cfg.reporter ≠ .nullish) :
    catchBlock cfg test start e st =
      ({ st with
          trace := st.trace ++ [Event.warn (failureMessage test e)] ++
            sendEvents cfg.reporter (failureMessage test e) false,
          results := st.results ++
            [failureResult test e (((st.now : Int) - (start : Int)) / 1000)],
          errorCount := st.errorCount + 1 }, none) := by
  cases h : cfg.reporter with
  | nullish => exact absurd h hrep
  | func =>
    simp [catchBlock, realtimeCheck, sendEvents, h]
  | obj t =>
    by_cases ht : t = some "realtime" <;>
      simp [catchBlock, realtimeCheck, sendEvents, h, ht]

theorem catchBlock_nullish (cfg : TestRunner) (test : TestCase) (start : Nat) (e : String)
    (st : RunState) (hrep : cfg.reporter = .nullish) :
    catchBlock cfg test start e st =
      ({ st with
          trace := st.trace ++ [Event.warn (failureMessage test e)],
          results := st.results ++
            [failureResult test e (((st.now : Int) - (start : Int)) / 1000)] },
       some typeErrorMsg) := by
  simp [catchBlock, realtimeCheck, hrep]

theorem runTest_setup_ok (cfg : TestRunner) (scope : TestScope) (test : TestCase)
    (st : RunState) (hc : cfg.component.clearAsync = .ok) (hb : scopeHookOk scope)
    (hr : cfg.component.reRender = .ok) (hrep : cfg.reporter ≠ .nullish) :
    runTest cfg scope test st =
      (match test.f with
       | .ok =>
         ({ now := st.now + cfg.stepTime + hookTicks scope * cfg.stepTime + cfg.stepTime,
            results := st.results ++ [successResult test
              ((((st.now + cfg.stepTime + hookTicks scope * cfg.stepTime + cfg.stepTime : Nat) : Int) - (st.now : Int)) / 1000)],
            errorCount := st.errorCount,
            trace := st.trace ++ [Event.clearAsyncCall] ++ hookEvents scope ++
              [Event.reRenderCall, Event.caseBodyCall scope test] ++
              [Event.log (successMessage test)] ++
              sendEvents cfg.reporter (successMessage test) true }, none)
       | .throws e =>
         ({ now := st.now + cfg.stepTime + hookTicks scope * cfg.stepTime + cfg.stepTime,
            results := st.results ++ [failureResult test e
              ((((st.now + cfg.stepTime + hookTicks scope * cfg.stepTime + cfg.stepTime : Nat) : Int) - (st.now : Int)) / 1000)],
            errorCount := st.errorCount + 1,
            trace := st.trace ++ [Event.clearAsyncCall] ++ hookEvents scope ++
              [Event.reRenderCall, Event.caseBodyCall scope test] ++
              [Event.warn (failureMessage test e)] ++
              sendEvents cfg.reporter (failureMessage test e) false }, none)) := by
  rcases hb with hb | hb <;> cases hf : test.f <;>
    simp [runTest, catchBlock_eq cfg test _ _ _ hrep, hookEvents, hookTicks,
      hb, hc, hr, hf, realtimeCheck_not_nullish _ _ _ hrep, sendEvents_eq_toList,
      sendEvents]

theorem runTest_clear_throws (cfg : TestRunner) (scope : TestScope) (test : TestCase)
    (st : RunState) (e : String) (hc : cfg.component.clearAsync = .throws e) :
    runTest cfg scope test st =
      ({ st with trace := st.trace ++ [Event.clearAsyncCall],
                 now := st.now + cfg.stepTime }, some e) := by
  simp [runTest, hc]

theorem runTest_hook_throws (cfg : TestRunner) (scope : TestScope) (test : TestCase)
    (st : RunState) (e : String) (hc : cfg.component.clearAsync = .ok)
    (hb : scope.beforeEach = some (.throws e)) :
    runTest cfg scope test st =
      ({ st with trace := st.trace ++ [Event.clearAsyncCall, Event.beforeEachCall scope],
                 now := st.now + cfg.stepTime + cfg.stepTime }, some e) := by
  simp [runTest, hc, hb]

theorem runTest_reRender_throws (cfg : TestRunner) (scope : TestScope) (test : TestCase)
    (st : RunState) (e : String) (hc : cfg.component.clearAsync = .ok)
    (hb : scopeHookOk scope) (hr : cfg.component.reRender = .throws e) :
    runTest cfg scope test st =
      ({ st with trace := st.trace ++ [Event.clearAsyncCall] ++ hookEvents scope ++
                   [Event.reRenderCall],
                 now := st.now + cfg.stepTime + hookTicks scope * cfg.stepTime }, some e) := by
  rcases hb with hb | hb <;> simp [runTest, hc, hb, hr, hookEvents, hookTicks]

theorem runTest_nullish (cfg : TestRunner) (scope : TestScope) (test : TestCase)
    (st : RunState) (hrep : cfg.reporter = .nullish) :
    ((runTest cfg scope test st).2).isSome = true := by
  cases hc : cfg.component.clearAsync with
  | throws e => simp [runTest_clear_throws cfg scope test st e hc]
  | ok =>
    cases hb : scope.beforeEach with
    | some hook =>
      cases hook with
      | throws e => simp [runTest_hook_throws cfg scope test st e hc hb]
      | ok =>
        cases hr : cfg.component.reRender with
        | throws e =>
          simp [runTest_reRender_throws cfg scope test st e hc (Or.inr hb) hr]
        | ok =>
          cases hf : test.f with
          | ok =>
            simp [runTest, hc, hb, hr, hf, realtimeCheck, hrep,
              catchBlock_nullish _ _ _ _ _ hrep]
          | throws e =>
            simp [runTest, hc, hb, hr, hf, realtimeCheck, hrep,
              catchBlock_nullish _ _ _ _ _ hrep]
    | none =>
      cases hr : cfg.component.reRender with
      | throws e =>
        simp [runTest_reRender_throws cfg scope test st e hc (Or.inl hb) hr]
      | ok =>
        cases hf : test.f with
        | ok =>
          simp [runTest, hc, hb, hr, hf, realtimeCheck, hrep,
            catchBlock_nullish _ _ _ _ _ hrep]
        | throws e =>
          simp [runTest, hc, hb, hr, hf, realtimeCheck, hrep,
            catchBlock_nullish _ _ _ _ _ hrep]

theorem finalReportEvents_append (a b : List Event) :
    finalReportEvents (a ++ b) = finalReportEvents a ++ finalReportEvents b := by
  simp [finalReportEvents, List.filter_append]

theorem reporterEvents_append (a b : List Event) :
    reporterEvents (a ++ b) = reporterEvents a ++ reporterEvents b := by
  simp [reporterEvents, List.filter_append]

theorem executedBodies_append (a b : List Event) :
    executedBodies (a ++ b) = executedBodies a ++ executedBodies b := by
  simp [executedBodies, List.filterMap_append]

theorem finalReportEvents_sendEvents (rep : Reporter) (msg : String) (passed : Bool) :
    finalReportEvents (sendEvents rep msg passed) = [] := by
  by_cases h : rep = Reporter.obj (some "realtime") <;>
    simp [sendEvents, h, finalReportEvents, isFinalReportEvent]

theorem reporterEvents_sendEvents (rep : Reporter) (msg : String) (passed : Bool) :
    reporterEvents (sendEvents rep msg passed) = sendEvents rep msg passed := by
  by_cases h : rep = Reporter.obj (some "realtime") <;>
    simp [sendEvents, h, reporterEvents, isReporterEvent]

theorem executedBodies_sendEvents (rep : Reporter) (msg : String) (passed : Bool) :
    executedBodies (sendEvents rep msg passed) = [] := by
  by_cases h : rep = Reporter.obj (some "realtime") <;>
    simp [sendEvents, h, executedBodies, bodyOf]

theorem finalReportEvents_hookEvents (scope : TestScope) :
    finalReportEvents (hookEvents scope) = [] := by
  cases h : scope.beforeEach <;>
    simp [hookEvents, h, finalReportEvents, isFinalReportEvent]

theorem reporterEvents_hookEvents (scope : TestScope) :
    reporterEvents (hookEvents scope) = [] := by
  cases h : scope.beforeEach <;>
    simp [hookEvents, h, reporterEvents, isReporterEvent]

theorem executedBodies_hookEvents (scope : TestScope) :
    executedBodies (hookEvents scope) = [] := by
  cases h : scope.beforeEach <;> simp [hookEvents, h, executedBodies, bodyOf]

theorem finalReportEvents_nil : finalReportEvents [] = [] := rfl

theorem finalReportEvents_cons_false (e : Event) (tr : List Event)
    (h : isFinalReportEvent e = false) :
    finalReportEvents (e :: tr) = finalReportEvents tr := by
  simp [finalReportEvents, List.filter_cons, h]

theorem reporterEvents_nil : reporterEvents [] = [] := rfl

theorem reporterEvents_cons_false (e : Event) (tr : List Event)
    (h : isReporterEvent e = false) :
    reporterEvents (e :: tr) = reporterEvents tr := by
  simp [reporterEvents, List.filter_cons, h]

theorem reporterEvents_cons_true (e : Event) (tr : List Event)
    (h : isReporterEvent e = true) :
    reporterEvents (e :: tr) = e :: reporterEvents tr := by
  simp [reporterEvents, List.filter_cons, h]

theorem executedBodies_nil : executedBodies [] = [] := rfl

theorem executedBodies_cons_none (e : Event) (tr : List Event)
    (h : bodyOf e = none) :
    executedBodies (e :: tr) = executedBodies tr := by
  simp [executedBodies, List.filterMap_cons, h]

theorem executedBodies_cons_some (e : Event) (tr : List Event)
    (p : TestScope × TestCase) (h : bodyOf e = some p) :
    executedBodies (e :: tr) = p :: executedBodies tr := by
  simp [executedBodies, List.filterMap_cons, h]

theorem hookEvents_no_final (scope : TestScope) :
    ∀ a ∈ hookEvents scope, isFinalReportEvent a = false := by
  cases h : scope.beforeEach <;> simp [hookEvents, h, isFinalReportEvent]

theorem sendEvents_no_final (rep : Reporter) (msg : String) (passed : Bool) :
    ∀ a ∈ sendEvents rep msg passed, isFinalReportEvent a = false := by
  by_cases h : rep = Reporter.obj (some "realtime") <;>
    simp [sendEvents, h, isFinalReportEvent]

theorem hookEvents_no_reporter (scope : TestScope) :
    ∀ a ∈ hookEvents scope, isReporterEvent a = false := by
  cases h : scope.beforeEach <;> simp [hookEvents, h, isReporterEvent]

theorem sendEvents_all_reporter (rep : Reporter) (msg : String) (passed : Bool) :
    ∀ a ∈ sendEvents rep msg passed, isReporterEvent a = true := by
  by_cases h : rep = Reporter.obj (some "realtime") <;>
    simp [sendEvents, h, isReporterEvent]

theorem hookEvents_bodyOf (scope : TestScope) :
    ∀ a ∈ hookEvents scope, bodyOf a = none := by
  cases h : scope.beforeEach <;> simp [hookEvents, h, bodyOf]

theorem sendEvents_bodyOf (rep : Reporter) (msg : String) (passed : Bool) :
    ∀ a ∈ sendEvents rep msg passed, bodyOf a = none := by
  by_cases h : rep = Reporter.obj (some "realtime") <;>
    simp [sendEvents, h, bodyOf]

theorem countFailed_append (rs : List TestResult) (r : TestResult) :
    countFailed (rs ++ [r]) = countFailed rs + (if r.passed then 0 else 1) := by
  by_cases h : r.passed <;> simp [countFailed, List.filter_append, h]

theorem runTest_finalReportEvents (cfg : TestRunner) (scope : TestScope)
    (test : TestCase) (st : RunState) :
    finalReportEvents (runTest cfg scope test st).1.trace =
      finalReportEvents st.trace := by
  cases hc : cfg.component.clearAsync with
  | throws e =>
    simp [runTest_clear_throws cfg scope test st e hc, finalReportEvents_append,
      finalReportEvents_cons_false, finalReportEvents_nil, isFinalReportEvent]
  | ok =>
    have main : ∀ _ : scopeHookOk scope,
        finalReportEvents (runTest cfg scope test st).1.trace =
          finalReportEvents st.trace := by
      intro hb
      cases hr : cfg.component.reRender with
      | throws e =>
        simp [runTest_reRender_throws cfg scope test st e hc hb hr,
          finalReportEvents_append, finalReportEvents_hookEvents,
          finalReportEvents_cons_false, finalReportEvents_nil, isFinalReportEvent]
      | ok =>
        by_cases hrep : cfg.reporter = Reporter.nullish
        · rcases hb with hb | hb <;> cases hf : test.f <;>
            simp [runTest, hb, hc, hr, hf, realtimeCheck, hrep,
              catchBlock_nullish cfg test _ _ _ hrep, finalReportEvents_append,
              finalReportEvents_cons_false, finalReportEvents_nil, isFinalReportEvent]
        · rw [runTest_setup_ok cfg scope test st hc hb hr hrep]
          cases hf : test.f <;>
            simp [finalReportEvents_append, finalReportEvents_hookEvents,
              finalReportEvents_sendEvents, finalReportEvents_cons_false,
              finalReportEvents_nil, isFinalReportEvent]
    cases hb : scope.beforeEach with
    | some hook =>
      cases hook with
      | throws e =>
        simp [runTest_hook_throws cfg scope test st e hc hb, finalReportEvents_append,
          finalReportEvents_cons_false, finalReportEvents_nil, isFinalReportEvent]
      | ok => exact main (Or.inr hb)
    | none => exact main (Or.inl hb)

theorem runTest_now_ge (cfg : TestRunner) (scope : TestScope) (test : TestCase)
    (st : RunState) : st.now ≤ (runTest cfg scope test st).1.now := by
  cases hc : cfg.component.clearAsync with
  | throws e =>
    simp [runTest_clear_throws cfg scope test st e hc]
  | ok =>
    have main : ∀ _ : scopeHookOk scope, st.now ≤ (runTest cfg scope test st).1.now := by
      intro hb
      cases hr : cfg.component.reRender with
      | throws e =>
        simp [runTest_reRender_throws cfg scope test st e hc hb hr]
        omega
      | ok =>
        by_cases hrep : cfg.reporter = Reporter.nullish
        · rcases hb with hb | hb <;> cases hf : test.f <;>
            simp [runTest, hb, hc, hr, hf, realtimeCheck, hrep,
              catchBlock_nullish cfg test _ _ _ hrep] <;>
            omega
        · rw [runTest_setup_ok cfg scope test st hc hb hr hrep]
          cases hf : test.f <;> simp <;> omega
    cases hb : scope.beforeEach with
    | some hook =>
      cases hook with
      | throws e =>
        simp [runTest_hook_throws cfg scope test st e hc hb]
        omega
      | ok => exact main (Or.inr hb)
    | none => exact main (Or.inl hb)

theorem runCases_finalReportEvents (cfg : TestRunner) (scope : TestScope)
    (cs : List TestCase) (st : RunState) :
    finalReportEvents (runCases cfg scope cs st).1.trace = finalReportEvents st.trace := by
  induction cs generalizing st with
  | nil => rfl
  | cons t rest ih =>
    by_cases hrun : shouldRunTest cfg.filter t.tag
    · simp only [runCases, hrun, if_true]
      cases hrt : runTest cfg scope t st with
      | mk st1 err =>
        have h1 : finalReportEvents st1.trace = finalReportEvents st.trace := by
          have h := runTest_finalReportEvents cfg scope t st
          rw [hrt] at h
          exact h
        cases err with
        | none => rw [ih st1]; exact h1
        | some e => exact h1
    · simp only [runCases, hrun, if_false]
      exact ih st

theorem runCases_now_ge (cfg : TestRunner) (scope : TestScope)
    (cs : List TestCase) (st : RunState) :
    st.now ≤ (runCases cfg scope cs st).1.now := by
  induction cs generalizing st with
  | nil => exact Nat.le_refl st.now
  | cons t rest ih =>
    by_cases hrun : shouldRunTest cfg.filter t.tag
    · simp only [runCases, hrun, if_true]
      cases hrt : runTest cfg scope t st with
      | mk st1 err =>
        have h1 : st.now ≤ st1.now := by
          have h := runTest_now_ge cfg scope t st
          rw [hrt] at h
          exact h
        cases err with
        | none => exact Nat.le_trans h1 (ih st1)
        | some e => exact h1
    · simp only [runCases, hrun, if_false]
      exact ih st

theorem runSuites_finalReportEvents (cfg : TestRunner) (suites : List TestScope)
    (st : RunState) :
    finalReportEvents (runSuites cfg suites st).1.trace = finalReportEvents st.trace := by
  induction suites generalizing st with
  | nil => rfl
  | cons s rest ih =>
    simp only [runSuites]
    cases hrc : runCases cfg s s.testCases st with
    | mk st1 err =>
      have h1 : finalReportEvents st1.trace = finalReportEvents st.trace := by
        have h := runCases_finalReportEvents cfg s s.testCases st
        rw [hrc] at h
        exact h
      cases err with
      | none => rw [ih st1]; exact h1
      | some e => exact h1

theorem runSuites_now_ge (cfg : TestRunner) (suites : List TestScope) (st : RunState) :
    st.now ≤ (runSuites cfg suites st).1.now := by
  induction suites generalizing st with
  | nil => exact Nat.le_refl st.now
  | cons s rest ih =>
    simp only [runSuites]
    cases hrc : runCases cfg s s.testCases st with
    | mk st1 err =>
      have h1 : st.now ≤ st1.now := by
        have h := runCases_now_ge cfg s s.testCases st
        rw [hrc] at h
        exact h
      cases err with
      | none => exact Nat.le_trans h1 (ih st1)
      | some e => exact h1

theorem runTest_errorCount_inv (cfg : TestRunner) (scope : TestScope) (test : TestCase)
    (st : RunState) (hrep : cfg.reporter ≠ .nullish)
    (hinv : st.errorCount = countFailed st.results) :
    (runTest cfg scope test st).1.errorCount =
      countFailed (runTest cfg scope test st).1.results := by
  cases hc : cfg.component.clearAsync with
  | throws e => simpa [runTest_clear_throws cfg scope test st e hc] using hinv
  | ok =>
    have main : ∀ _ : scopeHookOk scope,
        (runTest cfg scope test st).1.errorCount =
          countFailed (runTest cfg scope test st).1.results := by
      intro hb
      cases hr : cfg.component.reRender with
      | throws e =>
        simpa [runTest_reRender_throws cfg scope test st e hc hb hr] using hinv
      | ok =>
        rw [runTest_setup_ok cfg scope test st hc hb hr hrep]
        cases hf : test.f with
        | ok => simp [countFailed_append, successResult, hinv]
        | throws e => simp [countFailed_append, failureResult, hinv]
    cases hb : scope.beforeEach with
    | some hook =>
      cases hook with
      | throws e => simpa [runTest_hook_throws cfg scope test st e hc hb] using hinv
      | ok => exact main (Or.inr hb)
    | none => exact main (Or.inl hb)

theorem runCases_errorCount_inv (cfg : TestRunner) (scope : TestScope)
    (cs : List TestCase) (st : RunState) (hrep : cfg.reporter ≠ .nullish)
    (hinv : st.errorCount = countFailed st.results) :
    (runCases cfg scope cs st).1.errorCount =
      countFailed (runCases cfg scope cs st).1.results := by
  induction cs generalizing st with
  | nil => exact hinv
  | cons t rest ih =>
    by_cases hrun : shouldRunTest cfg.filter t.tag
    · simp only [runCases, hrun, if_true]
      cases hrt : runTest cfg scope t st with
      | mk st1 err =>
        have h1 : st1.errorCount = countFailed st1.results := by
          have h := runTest_errorCount_inv cfg scope t st hrep hinv
          rw [hrt] at h
          exact h
        cases err with
        | none => exact ih st1 h1
        | some e => exact h1
    · simp only [runCases, hrun, if_false]
      exact ih st hinv

theorem runSuites_errorCount_inv (cfg : TestRunner) (suites : List TestScope)
    (st : RunState) (hrep : cfg.reporter ≠ .nullish)
    (hinv : st.errorCount = countFailed st.results) :
    (runSuites cfg suites st).1.errorCount =
      countFailed (runSuites cfg suites st).1.results := by
  induction suites generalizing st with
  | nil => exact hinv
  | cons s rest ih =>
    simp only [runSuites]
    cases hrc : runCases cfg s s.testCases st with
    | mk st1 err =>
      have h1 : st1.errorCount = countFailed st1.results := by
        have h := runCases_errorCount_inv cfg s s.testCases st hrep hinv
        rw [hrc] at h
        exact h
      cases err with
      | none => exact ih st1 h1
      | some e => exact h1

theorem dispatchReport_state (cfg : TestRunner) (report : Report) (st : RunState) :
    (dispatchReport cfg report st).1.results = st.results ∧
    (dispatchReport cfg report st).1.errorCount = st.errorCount ∧
    executedBodies (dispatchReport cfg report st).1.trace = executedBodies st.trace := by
  cases h : cfg.reporter with
  | func =>
    simp [dispatchReport, h, executedBodies_append, executedBodies_cons_none,
      executedBodies_nil, bodyOf]
  | nullish => simp [dispatchReport, h]
  | obj t =>
    by_cases h1 : t = some "realtime"
    · simp [dispatchReport, h, h1, executedBodies_append, executedBodies_cons_none,
        executedBodies_nil, bodyOf]
    · by_cases h2 : t = some "deferred" <;>
        simp [dispatchReport, h, h1, h2, executedBodies_append,
          executedBodies_cons_none, executedBodies_nil, bodyOf]

theorem runTestSuites_eq (cfg : TestRunner) (st : RunState) :
    runTestSuites cfg st =
      match runSuites cfg cfg.testSuites (withStartLog st) with
      | (st1, some e) => (st1, some e)
      | (st1, none) => finishReport cfg st.now st1 := rfl

theorem withStartLog_fields (st : RunState) :
    (withStartLog st).now = st.now ∧ (withStartLog st).results = st.results ∧
    (withStartLog st).errorCount = st.errorCount := ⟨rfl, rfl, rfl⟩

theorem withStartLog_executedBodies (st : RunState) :
    executedBodies (withStartLog st).trace = executedBodies st.trace := by
  simp [withStartLog, executedBodies_append, executedBodies_cons_none,
    executedBodies_nil, bodyOf]

theorem withStartLog_reporterEvents (st : RunState) :
    reporterEvents (withStartLog st).trace = reporterEvents st.trace := by
  simp [withStartLog, reporterEvents_append, reporterEvents_cons_false,
    reporterEvents_nil, isReporterEvent]

theorem withStartLog_finalReportEvents (st : RunState) :
    finalReportEvents (withStartLog st).trace = finalReportEvents st.trace := by
  simp [withStartLog, finalReportEvents_append, finalReportEvents_cons_false,
    finalReportEvents_nil, isFinalReportEvent]

theorem withStopLog_reporterEvents (st : RunState) (stop : Nat) (d : Int) :
    reporterEvents (withStopLog st stop d).trace = reporterEvents st.trace := by
  simp [withStopLog, reporterEvents_append, reporterEvents_cons_false,
    reporterEvents_nil, isReporterEvent]

theorem withDeprecationWarn_reporterEvents (st : RunState) :
    reporterEvents (withDeprecationWarn st).trace = reporterEvents st.trace := by
  simp [withDeprecationWarn, reporterEvents_append, reporterEvents_cons_false,
    reporterEvents_nil, isReporterEvent]

theorem finishReport_results_errorCount (cfg : TestRunner) (start : Nat)
    (st : RunState) :
    (finishReport cfg start st).1.results = st.results ∧
    (finishReport cfg start st).1.errorCount = st.errorCount := by
  have hdisp1 : ∀ (report : Report) (stx : RunState),
      (dispatchReport cfg report stx).1.results = stx.results :=
    fun report stx => (dispatchReport_state cfg report stx).1
  have hdisp2 : ∀ (report : Report) (stx : RunState),
      (dispatchReport cfg report stx).1.errorCount = stx.errorCount :=
    fun report stx => (dispatchReport_state cfg report stx).2.1
  unfold finishReport
  cases hsf : cfg.shouldSendReport with
  | none =>
    constructor
    · rw [hdisp1]
      simp [withStopLog]
    · rw [hdisp2]
      simp [withStopLog]
  | some flag =>
    cases flag with
    | false => exact ⟨rfl, rfl⟩
    | true =>
      constructor
      · simp only [Bool.not_true, Bool.false_eq_true, if_false]
        rw [hdisp1]
        simp [withStopLog, withDeprecationWarn]
      · simp only [Bool.not_true, Bool.false_eq_true, if_false]
        rw [hdisp2]
        simp [withStopLog, withDeprecationWarn]

theorem finishReport_executedBodies (cfg : TestRunner) (start : Nat) (st : RunState) :
    executedBodies (finishReport cfg start st).1.trace = executedBodies st.trace := by
  have hdisp : ∀ (report : Report) (stx : RunState),
      executedBodies (dispatchReport cfg report stx).1.trace = executedBodies stx.trace :=
    fun report stx => (dispatchReport_state cfg report stx).2.2
  unfold finishReport
  cases hsf : cfg.shouldSendReport with
  | none =>
    rw [hdisp]
    simp [withStopLog, executedBodies_append, executedBodies_cons_none,
      executedBodies_nil, bodyOf]
  | some flag =>
    cases flag with
    | false =>
      simp [withStopLog, withDeprecationWarn, executedBodies_append,
        executedBodies_cons_none, executedBodies_nil, bodyOf]
    | true =>
      simp only [Bool.not_true, Bool.false_eq_true, if_false]
      rw [hdisp]
      simp [withStopLog, withDeprecationWarn, executedBodies_append,
        executedBodies_cons_none, executedBodies_nil, bodyOf]

theorem runTestSuites_errorCount_inv (cfg : TestRunner) (st : RunState)
    (hrep : cfg.reporter ≠ .nullish)
    (hinv : st.errorCount = countFailed st.results) :
    (runTestSuites cfg st).1.errorCount =
      countFailed (runTestSuites cfg st).1.results := by
  rw [runTestSuites_eq]
  cases hrs : runSuites cfg cfg.testSuites (withStartLog st) with
  | mk st1 err =>
    have hinv1 : (withStartLog st).errorCount = countFailed (withStartLog st).results :=
      hinv
    have h1 : st1.errorCount = countFailed st1.results := by
      have h := runSuites_errorCount_inv cfg cfg.testSuites (withStartLog st) hrep hinv1
      rw [hrs] at h
      exact h
    cases err with
    | some e => exact h1
    | none =>
      have hf := finishReport_results_errorCount cfg st.now st1
      simp only []
      rw [hf.1, hf.2]
      exact h1

theorem runTest_setup_facts (cfg : TestRunner) (scope : TestScope) (test : TestCase)
    (st : RunState) (hc : cfg.component.clearAsync = .ok) (hb : scopeHookOk scope)
    (hr : cfg.component.reRender = .ok) (hrep : cfg.reporter ≠ .nullish) :
    (runTest cfg scope test st).2 = none ∧
    executedBodies (runTest cfg scope test st).1.trace =
      executedBodies st.trace ++ [(scope, test)] ∧
    (runTest cfg scope test st).1.results.map (fun r => r.description) =
      st.results.map (fun r => r.description) ++ [test.description] := by
  rw [runTest_setup_ok cfg scope test st hc hb hr hrep]
  cases hf : test.f <;>
    simp [executedBodies_append, executedBodies_hookEvents, executedBodies_sendEvents,
      executedBodies_cons_none, executedBodies_cons_some, executedBodies_nil, bodyOf,
      successResult, failureResult]

theorem runTest_completed (cfg : TestRunner) (scope : TestScope) (test : TestCase)
    (st : RunState) (hrep : cfg.reporter ≠ .nullish)
    (h2 : (runTest cfg scope test st).2 = none) :
    ∃ r : TestResult,
      (runTest cfg scope test st).1.results = st.results ++ [r] ∧
      reporterEvents (runTest cfg scope test st).1.trace =
        reporterEvents st.trace ++ sendEvents cfg.reporter r.message r.passed := by
  cases hc : cfg.component.clearAsync with
  | throws e =>
    rw [runTest_clear_throws cfg scope test st e hc] at h2
    exact absurd h2 (by simp)
  | ok =>
    have main : ∀ _ : scopeHookOk scope,
        ∃ r : TestResult,
          (runTest cfg scope test st).1.results = st.results ++ [r] ∧
          reporterEvents (runTest cfg scope test st).1.trace =
            reporterEvents st.trace ++ sendEvents cfg.reporter r.message r.passed := by
      intro hb
      cases hr : cfg.component.reRender with
      | throws e =>
        rw [runTest_reRender_throws cfg scope test st e hc hb hr] at h2
        exact absurd h2 (by simp)
      | ok =>
        rw [runTest_setup_ok cfg scope test st hc hb hr hrep]
        cases hf : test.f with
        | ok =>
          refine ⟨successResult test _, rfl, ?_⟩
          simp [reporterEvents_append, reporterEvents_hookEvents,
            reporterEvents_sendEvents, reporterEvents_cons_false, reporterEvents_nil,
            isReporterEvent, successResult]
        | throws e =>
          refine ⟨failureResult test e _, rfl, ?_⟩
          simp [reporterEvents_append, reporterEvents_hookEvents,
            reporterEvents_sendEvents, reporterEvents_cons_false, reporterEvents_nil,
            isReporterEvent, failureResult]
    cases hb : scope.beforeEach with
    | some hook =>
      cases hook with
      | throws e =>
        rw [runTest_hook_throws cfg scope test st e hc hb] at h2
        exact absurd h2 (by simp)
      | ok => exact main (Or.inr hb)
    | none => exact main (Or.inl hb)

theorem runCases_setup_facts (cfg : TestRunner) (scope : TestScope)
    (cs : List TestCase) (st : RunState) (hc : cfg.component.clearAsync = .ok)
    (hb : scopeHookOk scope) (hr : cfg.component.reRender = .ok)
    (hrep : cfg.reporter ≠ .nullish) :
    (runCases cfg scope cs st).2 = none ∧
    executedBodies (runCases cfg scope cs st).1.trace =
      executedBodies st.trace ++
        (cs.filter (fun t => shouldRunTest cfg.filter t.tag)).map (fun t => (scope, t)) ∧
    (runCases cfg scope cs st).1.results.map (fun r => r.description) =
      st.results.map (fun r => r.description) ++
        (cs.filter (fun t => shouldRunTest cfg.filter t.tag)).map
          (fun t => t.description) := by
  induction cs generalizing st with
  | nil => simp [runCases]
  | cons t rest ih =>
    by_cases hrun : shouldRunTest cfg.filter t.tag
    · simp only [runCases, hrun, if_true]
      obtain ⟨h2, hexec, hres⟩ := runTest_setup_facts cfg scope t st hc hb hr hrep
      cases hrt : runTest cfg scope t st with
      | mk st1 err =>
        rw [hrt] at h2 hexec hres
        cases err with
        | none =>
          obtain ⟨ih2, ihexec, ihres⟩ := ih st1
          refine ⟨ih2, ?_, ?_⟩
          · rw [ihexec, hexec]
            simp [hrun]
          · rw [ihres, hres]
            simp [hrun]
        | some e => exact absurd h2 (by simp)
    · simp only [runCases, hrun, Bool.false_eq_true, if_false]
      obtain ⟨ih2, ihexec, ihres⟩ := ih st
      refine ⟨ih2, ?_, ?_⟩
      · rw [ihexec]
        simp [hrun]
      · rw [ihres]
        simp [hrun]

theorem runSuites_setup_facts (cfg : TestRunner) (suites : List TestScope)
    (st : RunState) (hc : cfg.component.clearAsync = .ok)
    (hb : ∀ s ∈ suites, scopeHookOk s) (hr : cfg.component.reRender = .ok)
    (hrep : cfg.reporter ≠ .nullish) :
    (runSuites cfg suites st).2 = none ∧
    executedBodies (runSuites cfg suites st).1.trace =
      executedBodies st.trace ++
        suites.flatMap (fun s =>
          (s.testCases.filter (fun t => shouldRunTest cfg.filter t.tag)).map
            (fun t => (s, t))) ∧
    (runSuites cfg suites st).1.results.map (fun r => r.description) =
      st.results.map (fun r => r.description) ++
        suites.flatMap (fun s =>
          (s.testCases.filter (fun t => shouldRunTest cfg.filter t.tag)).map
            (fun t => t.description)) := by
  induction suites generalizing st with
  | nil => simp [runSuites]
  | cons s rest ih =>
    simp only [runSuites]
    obtain ⟨h2, hexec, hres⟩ :=
      runCases_setup_facts cfg s s.testCases st hc (hb s (by simp)) hr hrep
    cases hrc : runCases cfg s s.testCases st with
    | mk st1 err =>
      rw [hrc] at h2 hexec hres
      cases err with
      | none =>
        obtain ⟨ih2, ihexec, ihres⟩ := ih st1 (fun x hx => hb x (List.mem_cons_of_mem s hx))
        refine ⟨ih2, ?_, ?_⟩
        · rw [ihexec, hexec]
          simp
        · rw [ihres, hres]
          simp
      | some e => exact absurd h2 (by simp)

theorem runCases_completed (cfg : TestRunner) (scope : TestScope)
    (cs : List TestCase) (st : RunState) (hrep : cfg.reporter ≠ .nullish)
    (h2 : (runCases cfg scope cs st).2 = none) :
    ∃ new : List TestResult,
      (runCases cfg scope cs st).1.results = st.results ++ new ∧
      reporterEvents (runCases cfg scope cs st).1.trace =
        reporterEvents st.trace ++ caseSends cfg.reporter new := by
  induction cs generalizing st with
  | nil => exact ⟨[], by simp [runCases, caseSends]⟩
  | cons t rest ih =>
    by_cases hrun : shouldRunTest cfg.filter t.tag
    · simp only [runCases, hrun, if_true] at h2 ⊢
      cases hrt : runTest cfg scope t st with
      | mk st1 err =>
        rw [hrt] at h2
        cases err with
        | none =>
          have hcomp : (runTest cfg scope t st).2 = none := by rw [hrt]
          obtain ⟨r, hres, hrep1⟩ := runTest_completed cfg scope t st hrep hcomp
          rw [hrt] at hres hrep1
          obtain ⟨new, ihres, ihrep⟩ := ih st1 h2
          refine ⟨r :: new, ?_, ?_⟩
          · rw [ihres, hres]
            simp
          · rw [ihrep, hrep1]
            simp [caseSends]
        | some e => exact absurd h2 (by simp)
    · simp only [runCases, hrun, Bool.false_eq_true, if_false] at h2 ⊢
      exact ih st h2

theorem runSuites_completed (cfg : TestRunner) (suites : List TestScope)
    (st : RunState) (hrep : cfg.reporter ≠ .nullish)
    (h2 : (runSuites cfg suites st).2 = none) :
    ∃ new : List TestResult,
      (runSuites cfg suites st).1.results = st.results ++ new ∧
      reporterEvents (runSuites cfg suites st).1.trace =
        reporterEvents st.trace ++ caseSends cfg.reporter new := by
  induction suites generalizing st with
  | nil => exact ⟨[], by simp [runSuites, caseSends]⟩
  | cons s rest ih =>
    simp only [runSuites] at h2 ⊢
    cases hrc : runCases cfg s s.testCases st with
    | mk st1 err =>
      rw [hrc] at h2
      cases err with
      | none =>
        have hcomp : (runCases cfg s s.testCases st).2 = none := by rw [hrc]
        obtain ⟨new1, hres1, hrep1⟩ := runCases_completed cfg s s.testCases st hrep hcomp
        rw [hrc] at hres1 hrep1
        obtain ⟨new2, ihres, ihrep⟩ := ih st1 h2
        refine ⟨new1 ++ new2, ?_, ?_⟩
        · rw [ihres, hres1]
          simp
        · rw [ihrep, hrep1]
          simp [caseSends]
      | some e => exact absurd h2 (by simp)

theorem runCases_nullish_none (cfg : TestRunner) (scope : TestScope)
    (cs : List TestCase) (st : RunState) (hrep : cfg.reporter = .nullish)
    (h2 : (runCases cfg scope cs st).2 = none) :
    ∀ t ∈ cs, shouldRunTest cfg.filter t.tag = false := by
  induction cs generalizing st with
  | nil =>
    intro t ht
    exact absurd ht (by simp)
  | cons t rest ih =>
    by_cases hrun : shouldRunTest cfg.filter t.tag
    · simp only [runCases, hrun, if_true] at h2
      cases hrt : runTest cfg scope t st with
      | mk st1 err =>
        rw [hrt] at h2
        cases err with
        | none =>
          have h := runTest_nullish cfg scope t st hrep
          rw [hrt] at h
          exact absurd h (by simp)
        | some e => exact absurd h2 (by simp)
    · simp only [runCases, hrun, Bool.false_eq_true, if_false] at h2
      intro x hx
      rcases List.mem_cons.mp hx with hx | hx
      · rw [hx]
        simpa using hrun
      · exact ih st h2 x hx

theorem runSuites_nullish_isSome (cfg : TestRunner) (suites : List TestScope)
    (st : RunState) (hrep : cfg.reporter = .nullish)
    (h : ∃ s ∈ suites, ∃ t ∈ s.testCases, shouldRunTest cfg.filter t.tag = true) :
    ((runSuites cfg suites st).2).isSome = true := by
  induction suites generalizing st with
  | nil =>
    obtain ⟨s, hs, -⟩ := h
    exact absurd hs (by simp)
  | cons s rest ih =>
    simp only [runSuites]
    cases hrc : runCases cfg s s.testCases st with
    | mk st1 err =>
      cases err with
      | some e => simp
      | none =>
        have hnone : (runCases cfg s s.testCases st).2 = none := by rw [hrc]
        have hnomatch := runCases_nullish_none cfg s s.testCases st hrep hnone
        obtain ⟨x, hx, t, ht, htag⟩ := h
        rcases List.mem_cons.mp hx with hx | hx
        · rw [hx] at ht
          exact absurd htag (by simp [hnomatch t ht])
        · exact ih st1 ⟨x, hx, t, ht, htag⟩

theorem caseSends_realtime (rs : List TestResult) :
    caseSends (Reporter.obj (some "realtime")) rs =
      rs.map (fun r => Event.reporterSend r.message r.passed) := by
  induction rs with
  | nil => rfl
  | cons r rest ih =>
    simp only [caseSends, List.flatMap_cons] at ih ⊢
    rw [ih]
    simp [sendEvents]

theorem caseSends_func (rs : List TestResult) :
    caseSends Reporter.func rs = [] := by
  induction rs with
  | nil => rfl
  | cons r rest ih =>
    simp only [caseSends, List.flatMap_cons] at ih ⊢
    rw [ih]
    simp [sendEvents]

theorem declaredCases_filter (cfg : TestRunner) :
    (declaredCases cfg).filter (fun p => shouldRunTest cfg.filter p.2.tag) =
      cfg.testSuites.flatMap (fun s =>
        (s.testCases.filter (fun t => shouldRunTest cfg.filter t.tag)).map
          (fun t => (s, t))) := by
  unfold declaredCases
  induction cfg.testSuites with
  | nil => rfl
  | cons s rest ih =>
    simp only [List.flatMap_cons, List.filter_append, ih]
    congr 1
    rw [List.filter_map]
    rfl

theorem shouldRunTest_none (tag : Option String) : shouldRunTest none tag = true := rfl

theorem shouldRunTest_some (F : List String) (tag : Option String) :
    shouldRunTest (some F) tag = true ↔ ∃ s, tag = some s ∧ s ∈ F := by
  cases tag with
  | none => simp [shouldRunTest, includesTag]
  | some s => simp [shouldRunTest, includesTag, List.elem_iff]

theorem finishReport_none_eq (cfg : TestRunner) (start : Nat) (st : RunState)
    (hsf : cfg.shouldSendReport = none) :
    finishReport cfg start st =
      dispatchReport cfg
        (mkReport st.results st.errorCount start (((st.now : Int) - (start : Int)) / 1000))
        (withStopLog st st.now (((st.now : Int) - (start : Int)) / 1000)) := by
  simp [finishReport, hsf, withStopLog]

theorem finishReport_flagFalse_eq (cfg : TestRunner) (start : Nat) (st : RunState)
    (hsf : cfg.shouldSendReport = some false) :
    finishReport cfg start st =
      (withDeprecationWarn
        (withStopLog st st.now (((st.now : Int) - (start : Int)) / 1000)), none) := by
  simp [finishReport, hsf]

theorem runTestSuites_setup_facts (cfg : TestRunner) (st : RunState)
    (hsetup : setupStepsOk cfg) (hrep : cfg.reporter ≠ .nullish) :
    executedBodies (runTestSuites cfg st).1.trace =
      executedBodies st.trace ++
        cfg.testSuites.flatMap (fun s =>
          (s.testCases.filter (fun t => shouldRunTest cfg.filter t.tag)).map
            (fun t => (s, t))) ∧
    (runTestSuites cfg st).1.results.map (fun r => r.description) =
      st.results.map (fun r => r.description) ++
        cfg.testSuites.flatMap (fun s =>
          (s.testCases.filter (fun t => shouldRunTest cfg.filter t.tag)).map
            (fun t => t.description)) := by
  obtain ⟨hc, hr, hhooks⟩ := hsetup
  rw [runTestSuites_eq]
  have facts := runSuites_setup_facts cfg cfg.testSuites (withStartLog st) hc hhooks hr hrep
  cases hrs : runSuites cfg cfg.testSuites (withStartLog st) with
  | mk st1 err =>
    rw [hrs] at facts
    obtain ⟨h2, hexec, hres⟩ := facts
    cases err with
    | some e => exact absurd h2 (by simp)
    | none =>
      rw [withStartLog_executedBodies] at hexec
      have hres1 : (withStartLog st).results = st.results := rfl
      rw [hres1] at hres
      constructor
      · rw [finishReport_executedBodies cfg st.now st1]
        exact hexec
      · rw [(finishReport_results_errorCount cfg st.now st1).1]
        exact hres

theorem runTestSuites_nullish_isSome (cfg : TestRunner) (st : RunState)
    (hrep : cfg.reporter = .nullish)
    (h : ∃ s ∈ cfg.testSuites, ∃ t ∈ s.testCases, shouldRunTest cfg.filter t.tag = true) :
    ((runTestSuites cfg st).2).isSome = true := by
  rw [runTestSuites_eq]
  cases hrs : runSuites cfg cfg.testSuites (withStartLog st) with
  | mk st1 err =>
    cases err with
    | some e => simp
    | none =>
      have hs := runSuites_nullish_isSome cfg cfg.testSuites (withStartLog st) hrep h
      rw [hrs] at hs
      exact absurd hs (by simp)

theorem runTestSuites_flagFalse (cfg : TestRunner) (st : RunState)
    (hsf : cfg.shouldSendReport = some false) :
    finalReportEvents (runTestSuites cfg st).1.trace = finalReportEvents st.trace ∧
    ((runTestSuites cfg st).2 = none →
      Event.warn deprecationMsg ∈ (runTestSuites cfg st).1.trace) := by
  rw [runTestSuites_eq]
  cases hrs : runSuites cfg cfg.testSuites (withStartLog st) with
  | mk st1 err =>
    have h1 : finalReportEvents st1.trace = finalReportEvents st.trace := by
      have h := runSuites_finalReportEvents cfg cfg.testSuites (withStartLog st)
      rw [hrs, withStartLog_finalReportEvents] at h
      exact h
    cases err with
    | some e =>
      refine ⟨h1, ?_⟩
      intro hcontra
      exact absurd hcontra (by simp)
    | none =>
      refine ⟨?_, ?_⟩
      · show finalReportEvents (finishReport cfg st.now st1).1.trace =
          finalReportEvents st.trace
        rw [finishReport_flagFalse_eq cfg st.now st1 hsf]
        simp [withDeprecationWarn, withStopLog, finalReportEvents_append,
          finalReportEvents_cons_false, finalReportEvents_nil, isFinalReportEvent, h1]
      · show (finishReport cfg st.now st1).2 = none →
          Event.warn deprecationMsg ∈ (finishReport cfg st.now st1).1.trace
        rw [finishReport_flagFalse_eq cfg st.now st1 hsf]
        intro _
        simp [withDeprecationWarn]

theorem dispatchReport_realtime (cfg : TestRunner) (report : Report) (st : RunState)
    (hrep : cfg.reporter = .obj (some "realtime")) :
    dispatchReport cfg report st =
      ({ st with trace := st.trace ++ [Event.reporterOnFinish report] }, none) := by
  simp [dispatchReport, hrep]

theorem dispatchReport_func (cfg : TestRunner) (report : Report) (st : RunState)
    (hrep : cfg.reporter = .func) :
    dispatchReport cfg report st =
      ({ st with trace := st.trace ++ [Event.reporterCallback report] }, none) := by
  simp [dispatchReport, hrep]

theorem sendEvents_no_lifecycle (rep : Reporter) (msg : String) (passed : Bool) :
    ∀ a ∈ sendEvents rep msg passed, isLifecycleEvent a = false := by
  by_cases h : rep = Reporter.obj (some "realtime") <;>
    simp [sendEvents, h, isLifecycleEvent]

theorem declaredCases_map_description (cfg : TestRunner) :
    (declaredCases cfg).map (fun p => p.2.description) =
      cfg.testSuites.flatMap (fun s => s.testCases.map (fun t => t.description)) := by
  unfold declaredCases
  induction cfg.testSuites with
  | nil => rfl
  | cons s rest ih =>
    simp only [List.flatMap_cons, List.map_append, ih, List.map_map]
    rfl

end Cavy

namespace Cavy

/-! ## The claims -/

set_option maxRecDepth 10000

/-- C1 (counterexample).  The claim says any error raised during lifecycle
steps 2-5 is caught at the case boundary and converted into a failed Result,
never aborting the run.  In this concrete run the state-reset operation
(step 2) throws `boom`: the error escapes `runTest`, no Result is recorded,
the second declared case never executes, and the whole run rejects. -/
theorem C1_counterexample :
    (runTestSuites clearThrowsCfg (initialState 0)).2 = some "boom" ∧
    (runTestSuites clearThrowsCfg (initialState 0)).1.results = [] ∧
    executedBodies (runTestSuites clearThrowsCfg (initialState 0)).1.trace = [] := by
  decide

/-- C1 (amended).  Only an error raised by the case body (step 5) is caught
at the case boundary of `runTest` and converted into a failed Result
(passed=false, errorMessage set); an error raised during state reset, the
setup hook, or resynchronization (steps 2-4) is not caught: it propagates
out of `runTest` with no Result recorded, aborting the iteration. -/
theorem C1_case_failure_containment (cfg : TestRunner) (scope : TestScope)
    (test : TestCase) (st : RunState) (hrep : cfg.reporter ≠ .nullish) :
    ((cfg.component.clearAsync = .ok ∧ scopeHookOk scope ∧
        cfg.component.reRender = .ok) →
      (runTest cfg scope test st).2 = none ∧
      ∃ r : TestResult,
        (runTest cfg scope test st).1.results = st.results ++ [r] ∧
        (r.passed = true ↔ test.f = .ok) ∧
        (∀ e, test.f = .throws e → r.errorMessage = some e ∧ r.passed = false)) ∧
    (∀ e, cfg.component.clearAsync = .throws e →
      (runTest cfg scope test st).2 = some e ∧
      (runTest cfg scope test st).1.results = st.results) ∧
    (∀ e, cfg.component.clearAsync = .ok → scope.beforeEach = some (.throws e) →
      (runTest cfg scope test st).2 = some e ∧
      (runTest cfg scope test st).1.results = st.results) ∧
    (∀ e, cfg.component.clearAsync = .ok → scopeHookOk scope →
      cfg.component.reRender = .throws e →
      (runTest cfg scope test st).2 = some e ∧
      (runTest cfg scope test st).1.results = st.results) := by
  refine ⟨?_, ?_, ?_, ?_⟩
  · rintro ⟨hc, hb, hr⟩
    rw [runTest_setup_ok cfg scope test st hc hb hr hrep]
    cases hf : test.f with
    | ok =>
      refine ⟨rfl, successResult test _, rfl, ?_, ?_⟩
      · simp [successResult, hf]
      · intro e he
        exact absurd he (by simp)
    | throws e0 =>
      refine ⟨rfl, failureResult test e0 _, rfl, ?_, ?_⟩
      · simp [failureResult, hf]
      · intro e he
        cases he
        exact ⟨rfl, rfl⟩
  · intro e hc
    rw [runTest_clear_throws cfg scope test st e hc]
    exact ⟨rfl, rfl⟩
  · intro e hc hbe
    rw [runTest_hook_throws cfg scope test st e hc hbe]
    exact ⟨rfl, rfl⟩
  · intro e hc hb hre
    rw [runTest_reRender_throws cfg scope test st e hc hb hre]
    exact ⟨rfl, rfl⟩

/-- C1 witness: the amended theorem applied at concrete runs — a case body
that throws is absorbed (error outcome `none`), while a throwing state-reset
propagates its error. -/
theorem C1_witness :
    (runTest basicCfg { testCases := [simpleCase, throwingCase], beforeEach := some .ok }
      throwingCase (initialState 0)).2 = none ∧
    (runTest clearThrowsCfg
      { testCases := [simpleCase, { simpleCase with label := "second" }], beforeEach := none }
      simpleCase (initialState 0)).2 = some "boom" :=
  ⟨((C1_case_failure_containment basicCfg
      { testCases := [simpleCase, throwingCase], beforeEach := some .ok }
      throwingCase (initialState 0) (by decide)).1 ⟨rfl, Or.inr rfl, rfl⟩).1,
   ((C1_case_failure_containment clearThrowsCfg
      { testCases := [simpleCase, { simpleCase with label := "second" }], beforeEach := none }
      simpleCase (initialState 0) (by decide)).2.1 "boom" rfl).1⟩

/-- C2 (counterexample).  The claim says a legacy `sendReport = false` run
yields zero reporter invocations, including the per-case realtime sends.
In this concrete run (realtime reporter, one passing case, flag `false`)
the reporter receives one per-case `send`, even though the deprecation
warning is emitted. -/
theorem C2_counterexample :
    reporterEvents (runTestSuites legacyRealtimeCfg (initialState 0)).1.trace =
      [Event.reporterSend (successMessage simpleCase) true] ∧
    Event.warn deprecationMsg ∈
      (runTestSuites legacyRealtimeCfg (initialState 0)).1.trace := by
  decide

/-- C2 (amended).  With the legacy flag supplied as `false`, no end-of-run
report is ever built or delivered (no callback, `onFinish`, or deferred
`send` invocation is added to the trace), and if the run completes the
deprecation warning is emitted; a realtime-shaped reporter may still
receive per-case `send` calls during execution. -/
theorem C2_legacy_flag (cfg : TestRunner) (st : RunState)
    (hsf : cfg.shouldSendReport = some false) :
    finalReportEvents (runTestSuites cfg st).1.trace = finalReportEvents st.trace ∧
    ((runTestSuites cfg st).2 = none →
      Event.warn deprecationMsg ∈ (runTestSuites cfg st).1.trace) :=
  runTestSuites_flagFalse cfg st hsf

/-- C2 witness: the amended theorem applied at the concrete legacy run. -/
theorem C2_witness :
    legacyRealtimeCfg.shouldSendReport = some false ∧
    (finalReportEvents (runTestSuites legacyRealtimeCfg (initialState 0)).1.trace =
      finalReportEvents (initialState 0).trace ∧
    ((runTestSuites legacyRealtimeCfg (initialState 0)).2 = none →
      Event.warn deprecationMsg ∈
        (runTestSuites legacyRealtimeCfg (initialState 0)).1.trace)) :=
  ⟨rfl, C2_legacy_flag legacyRealtimeCfg (initialState 0) rfl⟩

/-- C3 (code bug).  The claim (and the code's own intent) is that an
unrecognized reporter shape logs a diagnostic pointing to the documentation
and the run completes normally.  The final dispatch branch assigns to the
undeclared identifier `message`; class bodies are strict-mode code, so the
assignment throws a `ReferenceError` before `console.log` runs: the run
rejects and the diagnostic is never logged. -/
theorem C3_invalid_reporter_bug :
    (runTestSuites invalidReporterCfg (initialState 0)).2 = some referenceErrorMsg ∧
    Event.log invalidReporterMsg ∉
      (runTestSuites invalidReporterCfg (initialState 0)).1.trace := by
  decide

/-- C5 (confirmed, for runs with a reporter value provided).  At every case
boundary during a run and after the run, `errorCount` equals the number of
recorded results with passed=false: each `runTest` preserves the invariant
(a failed case increments the counter exactly once) and so does the whole
`runTestSuites`. -/
theorem C5_errorCount_invariant (cfg : TestRunner) (hrep : cfg.reporter ≠ .nullish) :
    (∀ (scope : TestScope) (test : TestCase) (st : RunState),
      st.errorCount = countFailed st.results →
      (runTest cfg scope test st).1.errorCount =
        countFailed (runTest cfg scope test st).1.results) ∧
    (∀ st : RunState, st.errorCount = countFailed st.results →
      (runTestSuites cfg st).1.errorCount =
        countFailed (runTestSuites cfg st).1.results) :=
  ⟨fun scope test st h => runTest_errorCount_inv cfg scope test st hrep h,
   fun st h => runTestSuites_errorCount_inv cfg st hrep h⟩

/-- C5 witness: the invariant instantiated on a concrete run with one
passing and one failing case. -/
theorem C5_witness :
    (runTestSuites basicCfg (initialState 0)).1.errorCount =
      countFailed (runTestSuites basicCfg (initialState 0)).1.results :=
  (C5_errorCount_invariant basicCfg (by decide)).2 (initialState 0) rfl

/-- C10 (confirmed).  Both the end-of-run dispatch and the per-case
realtime probe read `.type` on any non-function reporter, so a run with a
`null`/`undefined` reporter and at least one case matching the filter
raises an error: there is no guarded branch for an absent reporter. -/
theorem C10_null_reporter (cfg : TestRunner) (st : RunState)
    (hrep : cfg.reporter = .nullish)
    (h : ∃ s ∈ cfg.testSuites, ∃ t ∈ s.testCases,
      shouldRunTest cfg.filter t.tag = true) :
    ((runTestSuites cfg st).2).isSome = true :=
  runTestSuites_nullish_isSome cfg st hrep h

/-- C10 witness: the concrete run with a nullish reporter and two executable
cases rejects. -/
theorem C10_witness :
    nullReporterCfg.reporter = Reporter.nullish ∧
    (∃ s ∈ nullReporterCfg.testSuites, ∃ t ∈ s.testCases,
      shouldRunTest nullReporterCfg.filter t.tag = true) ∧
    ((runTestSuites nullReporterCfg (initialState 0)).2).isSome = true :=
  ⟨rfl, by decide, C10_null_reporter nullReporterCfg (initialState 0) rfl (by decide)⟩

/-- C4 (counterexample).  The claim says that under a non-null filter a
Case's lifecycle runs iff its tag is a member.  In this concrete filtered
run both declared cases carry the member tag `a`, but the first suite's
setup hook throws: only one lifecycle even starts (a single state-reset
call), no case body ever runs, and the run aborts — so the second
member-tagged case is never executed. -/
theorem C4_counterexample :
    includesTag ["a"] (some "a") = true ∧
    (runTestSuites filterHookAbortCfg (initialState 0)).1.trace.count
      Event.clearAsyncCall = 1 ∧
    executedBodies (runTestSuites filterHookAbortCfg (initialState 0)).1.trace = [] ∧
    (runTestSuites filterHookAbortCfg (initialState 0)).2 = some "hook boom" := by
  decide

/-- C4 (amended).  Provided every reset/setup/resync step succeeds and a
reporter value is provided, the executed case bodies are exactly the
declared cases whose tag passes the filter, in order; the filter guard
accepts everything when the filter is absent, and under a filter `F` it
accepts a case iff its tag is some member of `F` (an untagged case never
passes). -/
theorem C4_filter_semantics (cfg : TestRunner) (st : RunState)
    (hsetup : setupStepsOk cfg) (hrep : cfg.reporter ≠ .nullish) :
    executedBodies (runTestSuites cfg st).1.trace =
      executedBodies st.trace ++
        (declaredCases cfg).filter (fun p => shouldRunTest cfg.filter p.2.tag) ∧
    (∀ tag, shouldRunTest none tag = true) ∧
    (∀ (F : List String) (tag : Option String),
      shouldRunTest (some F) tag = true ↔ ∃ s, tag = some s ∧ s ∈ F) := by
  refine ⟨?_, shouldRunTest_none, shouldRunTest_some⟩
  rw [declaredCases_filter]
  exact (runTestSuites_setup_facts cfg st hsetup hrep).1

/-- C4 witness: the filter semantics instantiated on a concrete filtered
run (tags `a`, `b` and untagged under filter `["a"]`). -/
theorem C4_witness :
    setupStepsOk filteredCfg ∧
    executedBodies (runTestSuites filteredCfg (initialState 0)).1.trace =
      executedBodies (initialState 0).trace ++
        (declaredCases filteredCfg).filter
          (fun p => shouldRunTest filteredCfg.filter p.2.tag) :=
  ⟨by decide, (C4_filter_semantics filteredCfg (initialState 0) (by decide) (by decide)).1⟩

/-- C6 (counterexample).  The claim says every declared case of an
unfiltered run executes exactly once with its Result appended.  In this
concrete unfiltered run with two declared cases, the first suite's setup
hook throws: no case body runs, no Result is recorded, and the run
aborts. -/
theorem C6_counterexample :
    (declaredCases noFilterHookAbortCfg).length = 2 ∧
    executedBodies (runTestSuites noFilterHookAbortCfg (initialState 0)).1.trace = [] ∧
    (runTestSuites noFilterHookAbortCfg (initialState 0)).1.results = [] ∧
    (runTestSuites noFilterHookAbortCfg (initialState 0)).2 = some "setup boom" := by
  decide

/-- C6 (amended).  Provided every reset/setup/resync step succeeds and a
reporter value is provided, an unfiltered run executes every declared case
exactly once, sequentially in suite-then-case declaration order, and
appends one Result per case to the results sequence in that same order
(matched here by the derived description of each case). -/
theorem C6_execution_order (cfg : TestRunner) (st : RunState)
    (hsetup : setupStepsOk cfg) (hrep : cfg.reporter ≠ .nullish)
    (hfil : cfg.filter = none) :
    executedBodies (runTestSuites cfg st).1.trace =
      executedBodies st.trace ++ declaredCases cfg ∧
    (runTestSuites cfg st).1.results.map (fun r => r.description) =
      st.results.map (fun r => r.description) ++
        (declaredCases cfg).map (fun p => p.2.description) := by
  obtain ⟨hexec, hres⟩ := runTestSuites_setup_facts cfg st hsetup hrep
  constructor
  · rw [hexec]
    congr 1
    unfold declaredCases
    simp [hfil, shouldRunTest]
  · rw [hres, declaredCases_map_description]
    congr 1
    simp [hfil, shouldRunTest]

/-- C6 witness: the execution-order theorem instantiated on the concrete
unfiltered two-case run. -/
theorem C6_witness :
    setupStepsOk basicCfg ∧
    executedBodies (runTestSuites basicCfg (initialState 0)).1.trace =
      executedBodies (initialState 0).trace ++ declaredCases basicCfg :=
  ⟨by decide,
   (C6_execution_order basicCfg (initialState 0) (by decide) (by decide) rfl).1⟩

/-- C7 (confirmed).  For a run with a realtime-shaped reporter and the
legacy flag not supplied that completes normally, the reporter receives
exactly one `send` per recorded case result, in execution order, each
carrying that result's message and passed flag, followed by exactly one
`onFinish` with a report whose results are the accumulated results. -/
theorem C7_realtime_protocol (cfg : TestRunner) (st : RunState)
    (hrep : cfg.reporter = .obj (some "realtime"))
    (hsf : cfg.shouldSendReport = none)
    (hdone : (runTestSuites cfg st).2 = none) :
    ∃ (new : List TestResult) (report : Report),
      (runTestSuites cfg st).1.results = st.results ++ new ∧
      reporterEvents (runTestSuites cfg st).1.trace =
        reporterEvents st.trace ++
          new.map (fun r => Event.reporterSend r.message r.passed) ++
          [Event.reporterOnFinish report] ∧
      report.results = (runTestSuites cfg st).1.results := by
  rw [runTestSuites_eq] at hdone ⊢
  cases hrs : runSuites cfg cfg.testSuites (withStartLog st) with
  | mk st1 err =>
    rw [hrs] at hdone
    cases err with
    | some e => exact absurd hdone (by simp)
    | none =>
      have hrepne : cfg.reporter ≠ .nullish := by rw [hrep]; simp
      have hcomp : (runSuites cfg cfg.testSuites (withStartLog st)).2 = none := by
        rw [hrs]
      obtain ⟨new, hres, hrept⟩ :=
        runSuites_completed cfg cfg.testSuites (withStartLog st) hrepne hcomp
      rw [hrs, withStartLog_reporterEvents] at hrept
      rw [hrs] at hres
      have hres0 : (withStartLog st).results = st.results := rfl
      rw [hres0] at hres
      refine ⟨new,
        mkReport st1.results st1.errorCount st.now
          (((st1.now : Int) - (st.now : Int)) / 1000), ?_, ?_, ?_⟩
      · show (finishReport cfg st.now st1).1.results = st.results ++ new
        rw [(finishReport_results_errorCount cfg st.now st1).1]
        exact hres
      · show reporterEvents (finishReport cfg st.now st1).1.trace =
          reporterEvents st.trace ++
            new.map (fun r => Event.reporterSend r.message r.passed) ++
            [Event.reporterOnFinish
              (mkReport st1.results st1.errorCount st.now
                (((st1.now : Int) - (st.now : Int)) / 1000))]
        rw [finishReport_none_eq cfg st.now st1 hsf,
          dispatchReport_realtime cfg _ _ hrep]
        rw [show ({ withStopLog st1 st1.now (((st1.now : Int) - (st.now : Int)) / 1000)
            with trace :=
              (withStopLog st1 st1.now (((st1.now : Int) - (st.now : Int)) / 1000)).trace ++
              [Event.reporterOnFinish
                (mkReport st1.results st1.errorCount st.now
                  (((st1.now : Int) - (st.now : Int)) / 1000))] } : RunState).trace =
          st1.trace ++
            [Event.log ("Cavy test suite stopped at " ++ toString st1.now ++
              ", duration: " ++
              toString (((st1.now : Int) - (st.now : Int)) / 1000) ++ " seconds.")] ++
            [Event.reporterOnFinish
              (mkReport st1.results st1.errorCount st.now
                (((st1.now : Int) - (st.now : Int)) / 1000))] from rfl]
        rw [reporterEvents_append, reporterEvents_append]
        rw [hrept, hrep, caseSends_realtime]
        simp [reporterEvents_cons_false, reporterEvents_cons_true, reporterEvents_nil,
          isReporterEvent]
      · show (mkReport st1.results st1.errorCount st.now
            (((st1.now : Int) - (st.now : Int)) / 1000)).results =
          (finishReport cfg st.now st1).1.results
        rw [(finishReport_results_errorCount cfg st.now st1).1]
        rfl

/-- C7 witness: the realtime protocol instantiated on a concrete completing
run with one passing and one failing case. -/
theorem C7_witness :
    realtimeCfg.reporter = Reporter.obj (some "realtime") ∧
    (runTestSuites realtimeCfg (initialState 0)).2 = none ∧
    (∃ (new : List TestResult) (report : Report),
      (runTestSuites realtimeCfg (initialState 0)).1.results =
        (initialState 0).results ++ new ∧
      reporterEvents (runTestSuites realtimeCfg (initialState 0)).1.trace =
        reporterEvents (initialState 0).trace ++
          new.map (fun r => Event.reporterSend r.message r.passed) ++
          [Event.reporterOnFinish report] ∧
      report.results = (runTestSuites realtimeCfg (initialState 0)).1.results) :=
  ⟨rfl, by decide,
   C7_realtime_protocol realtimeCfg (initialState 0) rfl rfl (by decide)⟩

/-- C8 (confirmed).  For a run with a callback (function-shaped) reporter
and the legacy flag not supplied that completes normally, the reporter is
invoked exactly once, after all cases, with a report whose duration is
non-negative, whose results and errorCount are the accumulated state, and
whose fullResults.testCases is the same sequence as its results. -/
theorem C8_callback_protocol (cfg : TestRunner) (st : RunState)
    (hrep : cfg.reporter = .func) (hsf : cfg.shouldSendReport = none)
    (hdone : (runTestSuites cfg st).2 = none) :
    ∃ report : Report,
      reporterEvents (runTestSuites cfg st).1.trace =
        reporterEvents st.trace ++ [Event.reporterCallback report] ∧
      0 ≤ report.duration ∧
      report.results = (runTestSuites cfg st).1.results ∧
      report.errorCount = (runTestSuites cfg st).1.errorCount ∧
      report.fullResults.testCases = report.results := by
  rw [runTestSuites_eq] at hdone ⊢
  cases hrs : runSuites cfg cfg.testSuites (withStartLog st) with
  | mk st1 err =>
    rw [hrs] at hdone
    cases err with
    | some e => exact absurd hdone (by simp)
    | none =>
      have hrepne : cfg.reporter ≠ .nullish := by rw [hrep]; simp
      have hcomp : (runSuites cfg cfg.testSuites (withStartLog st)).2 = none := by
        rw [hrs]
      obtain ⟨new, hres, hrept⟩ :=
        runSuites_completed cfg cfg.testSuites (withStartLog st) hrepne hcomp
      rw [hrs, withStartLog_reporterEvents] at hrept
      have hnow : st.now ≤ st1.now := by
        have h := runSuites_now_ge cfg cfg.testSuites (withStartLog st)
        rw [hrs] at h
        exact h
      refine ⟨mkReport st1.results st1.errorCount st.now
        (((st1.now : Int) - (st.now : Int)) / 1000), ?_, ?_, ?_, ?_, ?_⟩
      · show reporterEvents (finishReport cfg st.now st1).1.trace =
          reporterEvents st.trace ++
            [Event.reporterCallback
              (mkReport st1.results st1.errorCount st.now
                (((st1.now : Int) - (st.now : Int)) / 1000))]
        rw [finishReport_none_eq cfg st.now st1 hsf,
          dispatchReport_func cfg _ _ hrep]
        rw [show ({ withStopLog st1 st1.now (((st1.now : Int) - (st.now : Int)) / 1000)
            with trace :=
              (withStopLog st1 st1.now (((st1.now : Int) - (st.now : Int)) / 1000)).trace ++
              [Event.reporterCallback
                (mkReport st1.results st1.errorCount st.now
                  (((st1.now : Int) - (st.now : Int)) / 1000))] } : RunState).trace =
          st1.trace ++
            [Event.log ("Cavy test suite stopped at " ++ toString st1.now ++
              ", duration: " ++
              toString (((st1.now : Int) - (st.now : Int)) / 1000) ++ " seconds.")] ++
            [Event.reporterCallback
              (mkReport st1.results st1.errorCount st.now
                (((st1.now : Int) - (st.now : Int)) / 1000))] from rfl]
        rw [reporterEvents_append, reporterEvents_append]
        rw [hrept, hrep, caseSends_func]
        simp [reporterEvents_cons_false, reporterEvents_cons_true, reporterEvents_nil,
          isReporterEvent]
      · show (0 : Int) ≤ ((st1.now : Int) - (st.now : Int)) / 1000
        exact Int.ediv_nonneg
          (Int.sub_nonneg.mpr (Int.ofNat_le.mpr hnow)) (by norm_num)
      · show (mkReport st1.results st1.errorCount st.now
            (((st1.now : Int) - (st.now : Int)) / 1000)).results =
          (finishReport cfg st.now st1).1.results
        rw [(finishReport_results_errorCount cfg st.now st1).1]
        rfl
      · show (mkReport st1.results st1.errorCount st.now
            (((st1.now : Int) - (st.now : Int)) / 1000)).errorCount =
          (finishReport cfg st.now st1).1.errorCount
        rw [(finishReport_results_errorCount cfg st.now st1).2]
        rfl
      · rfl

/-- C8 witness: the callback protocol instantiated on a concrete completing
run with one passing and one failing case. -/
theorem C8_witness :
    basicCfg.reporter = Reporter.func ∧
    (runTestSuites basicCfg (initialState 0)).2 = none ∧
    (∃ report : Report,
      reporterEvents (runTestSuites basicCfg (initialState 0)).1.trace =
        reporterEvents (initialState 0).trace ++ [Event.reporterCallback report] ∧
      0 ≤ report.duration ∧
      report.results = (runTestSuites basicCfg (initialState 0)).1.results ∧
      report.errorCount = (runTestSuites basicCfg (initialState 0)).1.errorCount ∧
      report.fullResults.testCases = report.results) :=
  ⟨rfl, by decide,
   C8_callback_protocol basicCfg (initialState 0) rfl rfl (by decide)⟩

/-- C9 (confirmed).  Whenever the reset, optional setup hook and resync
steps succeed, `runTest` performs the per-case lifecycle in a fixed order —
state reset, then the setup hook when declared (recorded with the suite as
its calling context, hence once per `runTest` invocation), then
resynchronization, then the case body (with the suite as its calling
context) — and no further lifecycle step follows in that case's trace. -/
theorem C9_lifecycle_order (cfg : TestRunner) (scope : TestScope) (test : TestCase)
    (st : RunState) (hc : cfg.component.clearAsync = .ok) (hb : scopeHookOk scope)
    (hr : cfg.component.reRender = .ok) :
    ∃ tail : List Event,
      (runTest cfg scope test st).1.trace =
        st.trace ++ [Event.clearAsyncCall] ++ hookEvents scope ++
          [Event.reRenderCall, Event.caseBodyCall scope test] ++ tail ∧
      (∀ ev ∈ tail, isLifecycleEvent ev = false) ∧
      (∀ hk, scope.beforeEach = some hk →
        hookEvents scope = [Event.beforeEachCall scope]) := by
  have hhook : ∀ hk, scope.beforeEach = some hk →
      hookEvents scope = [Event.beforeEachCall scope] := by
    intro hk hkk
    simp [hookEvents, hkk]
  by_cases hrep : cfg.reporter = Reporter.nullish
  · rcases hb with hb | hb <;> cases hf : test.f
    · refine ⟨[Event.log (successMessage test),
        Event.warn (failureMessage test typeErrorMsg)], ?_, ?_, hhook⟩
      · simp only [runTest, hb, hc, hr, hf, realtimeCheck, hrep,
          catchBlock_nullish cfg test _ _ _ hrep]
        simp [hookEvents, hb]
      · intro ev hev
        rcases List.mem_cons.mp hev with h | h
        · rw [h]; rfl
        · rw [List.mem_singleton.mp h]; rfl
    · rename_i e
      refine ⟨[Event.warn (failureMessage test e)], ?_, ?_, hhook⟩
      · simp only [runTest, hb, hc, hr, hf, realtimeCheck, hrep,
          catchBlock_nullish cfg test _ _ _ hrep]
        simp [hookEvents, hb]
      · intro ev hev
        rw [List.mem_singleton.mp hev]; rfl
    · refine ⟨[Event.log (successMessage test),
        Event.warn (failureMessage test typeErrorMsg)], ?_, ?_, hhook⟩
      · simp only [runTest, hb, hc, hr, hf, realtimeCheck, hrep,
          catchBlock_nullish cfg test _ _ _ hrep]
        simp [hookEvents, hb]
      · intro ev hev
        rcases List.mem_cons.mp hev with h | h
        · rw [h]; rfl
        · rw [List.mem_singleton.mp h]; rfl
    · rename_i e
      refine ⟨[Event.warn (failureMessage test e)], ?_, ?_, hhook⟩
      · simp only [runTest, hb, hc, hr, hf, realtimeCheck, hrep,
          catchBlock_nullish cfg test _ _ _ hrep]
        simp [hookEvents, hb]
      · intro ev hev
        rw [List.mem_singleton.mp hev]; rfl
  · rw [runTest_setup_ok cfg scope test st hc hb hr hrep]
    cases hf : test.f with
    | ok =>
      refine ⟨[Event.log (successMessage test)] ++
        sendEvents cfg.reporter (successMessage test) true, ?_, ?_, hhook⟩
      · simp [List.append_assoc]
      · intro ev hev
        rcases List.mem_append.mp hev with h | h
        · rw [List.mem_singleton.mp h]; rfl
        · exact sendEvents_no_lifecycle _ _ _ ev h
    | throws e =>
      refine ⟨[Event.warn (failureMessage test e)] ++
        sendEvents cfg.reporter (failureMessage test e) false, ?_, ?_, hhook⟩
      · simp [List.append_assoc]
      · intro ev hev
        rcases List.mem_append.mp hev with h | h
        · rw [List.mem_singleton.mp h]; rfl
        · exact sendEvents_no_lifecycle _ _ _ ev h

/-- C9 witness: the lifecycle order instantiated on a concrete case of the
basic run with a declared hook. -/
theorem C9_witness :
    ∃ tail : List Event,
      (runTest basicCfg { testCases := [simpleCase, throwingCase], beforeEach := some .ok }
        simpleCase (initialState 0)).1.trace =
        (initialState 0).trace ++ [Event.clearAsyncCall] ++
          hookEvents { testCases := [simpleCase, throwingCase], beforeEach := some .ok } ++
          [Event.reRenderCall,
           Event.caseBodyCall
             { testCases := [simpleCase, throwingCase], beforeEach := some .ok }
             simpleCase] ++ tail ∧
      (∀ ev ∈ tail, isLifecycleEvent ev = false) ∧
      (∀ hk, ({ testCases := [simpleCase, throwingCase], beforeEach := some .ok }
          : TestScope).beforeEach = some hk →
        hookEvents { testCases := [simpleCase, throwingCase], beforeEach := some .ok } =
          [Event.beforeEachCall
            { testCases := [simpleCase, throwingCase], beforeEach := some .ok }]) :=
  C9_lifecycle_order basicCfg
    { testCases := [simpleCase, throwingCase], beforeEach := some .ok }
    simpleCase (initialState 0) rfl (Or.inr rfl) rfl

end Cavy
